import Mathlib

/-!
Verification of the FPLayCity statistical-aggregation core.

This file gives a shallow embedding, in Lean 4, of the parts of the
code base that the frozen claims C1..C10 speak about:

* `src/fpl/aggregate.py` — the `Aggregate` ratio accumulator and the
  (shrunk) weighted averages `wa` / `swa`;
* `src/fpl/models/stats.py` — the FDR/side bucketed `StatsAggregate`
  family;
* `src/fpl/models/season.py` — `TeamStats`, `PlayerStats` and the
  `Season` replay engine;
* `src/fpl/forecast/models.py` — the per-player "ultimate" models;
* `src/fotmob/rotation/fotmob_adapter.py` — the gameweek mapper and
  the token-based name matcher / resolver;
* `src/fotmob/rotation/rotation_view.py` — `PlayerSquadRole`.

Python `float` values are embedded as exact rationals (`ℚ`); the one
place where genuinely irrational arithmetic happens (the `sqrt`
shrinkage weight of `swa`) is embedded over `ℝ`.  Python dictionaries
with a fixed key set (the FDR buckets keyed `1..5`, the per-gameweek
fixture lists keyed `1..38`) are embedded as total functions guarded
by an explicit key-range check: an out-of-range key access is a
`KeyError` in the source and is modelled by `Option.none`.  Raised
exceptions (`assert`, `KeyError`, `ZeroDivisionError`, `ValueError`)
are uniformly modelled by `Option.none` / `Except.error`.
-/

/-- Embeds `Aggregate` from `src/fpl/aggregate.py`: a `total`/`count`
ratio accumulator.  Both fields are Python floats. -/
structure Aggregate where
  total : ℚ
  count : ℚ
  deriving DecidableEq, Repr

/-- Embeds the property `Aggregate.p`: `0. if self.count == 0 else
self.total / self.count`. -/
def Aggregate.p (a : Aggregate) : ℚ :=
  if a.count = 0 then 0 else a.total / a.count

/-- Embeds `Aggregate.__add__`: component-wise addition. -/
def Aggregate.add (a b : Aggregate) : Aggregate :=
  ⟨a.total + b.total, a.count + b.count⟩

/-- Embeds `Aggregate.copy(scale)`: both fields multiplied by the
same factor. -/
def Aggregate.copy (a : Aggregate) (scale : ℚ) : Aggregate :=
  ⟨a.total * scale, a.count * scale⟩

/-- Result type of the weighted averages `wa`/`swa`; the shrinkage
weights are square roots, so the resulting totals and counts are real
numbers. -/
structure AggregateR where
  total : ℝ
  count : ℝ

/-- Embeds `wa(*items)` from `src/fpl/aggregate.py`: sums
`aggregate.total * weight` and `aggregate.count * weight` over all
items and divides both by the sum of the weights. -/
noncomputable def wa (items : List (Aggregate × ℝ)) : AggregateR :=
  let weightSum : ℝ := (items.map fun it => it.2).sum
  ⟨((items.map fun it => (it.1.total : ℝ) * it.2).sum) / weightSum,
   ((items.map fun it => (it.1.count : ℝ) * it.2).sum) / weightSum⟩

/-- The shrinkage weight used by `swa`: `math.sqrt(1. + min(38.,
aggregate.count))`. -/
noncomputable def swaWeight (count : ℚ) : ℝ :=
  Real.sqrt ((1 + min 38 count : ℚ) : ℝ)

/-- Embeds `swa(*aggregates)`: `wa` applied with weight
`swaWeight aggregate.count` for every input aggregate. -/
noncomputable def swa (aggregates : List Aggregate) : AggregateR :=
  wa (aggregates.map fun a => (a, swaWeight a.count))

/-- The two sides of a fixture (the keys of `side_aggregate`). -/
inductive Side where
  | home
  | away
  deriving DecidableEq, Repr

/-- Embeds `TeamFixture` from `src/fpl/models/immutable.py` (one
team's view of a fixture).  `expectedGoals`, `expectedAssists`,
`defensiveContribution` and `totalPoints` are derived properties in
the source (sums over the team's player-fixture records obtained from
the indexed collection, which the spec treats as an external lookup
service); they are embedded as fields carrying those sums.  `score`
is nullable until the fixture finishes. -/
structure TeamFixture where
  fixtureId : ℤ
  teamId : ℤ
  difficulty : ℤ
  score : Option ℤ
  expectedGoals : ℚ
  expectedAssists : ℚ
  defensiveContribution : ℚ
  totalPoints : ℚ
  deriving DecidableEq, Repr

/-- Embeds `Fixture` from `src/fpl/models/immutable.py`. -/
structure Fixture where
  fixtureId : ℤ
  finished : Bool
  gameweek : ℤ
  home : TeamFixture
  away : TeamFixture
  deriving DecidableEq, Repr

/-- Embeds `Fixture.home_clean_sheet`: `int(self.away.score == 0)`
(`None == 0` is false in Python, hence the `some` comparison). -/
def Fixture.homeCleanSheet (fx : Fixture) : ℚ :=
  if fx.away.score = some 0 then 1 else 0

/-- Embeds `Fixture.away_clean_sheet`: `int(self.home.score == 0)`. -/
def Fixture.awayCleanSheet (fx : Fixture) : ℚ :=
  if fx.home.score = some 0 then 1 else 0

/-- Embeds `PlayerFixture` from `src/fpl/models/immutable.py`.  The
per-fixture observation fields are nullable in the source dataclass
but are always populated for the finished fixtures the replay engine
consumes; they are embedded as plain rationals.  `teamDifficulty`
embeds the derived property `pf.team_fixture.difficulty` (a lookup of
the owning fixture through the external collection). -/
structure PlayerFixture where
  playerId : ℤ
  fixtureId : ℤ
  gameweek : ℤ
  wasHome : Bool
  totalPoints : ℚ
  minutes : ℚ
  defensiveContribution : ℚ
  expectedGoals : ℚ
  expectedAssists : ℚ
  teamDifficulty : ℤ
  deriving DecidableEq, Repr

/-- Embeds the property `PlayerFixture.side`: `'home' if was_home
else 'away'`. -/
def PlayerFixture.side (pf : PlayerFixture) : Side :=
  if pf.wasHome then Side.home else Side.away

/-- Embeds `StatsAggregate` from `src/fpl/models/stats.py`: five
`Aggregate`s keyed by FDR 1..5 and two keyed by side.  The FDR
dictionary has the fixed key set `{1,...,5}`; it is embedded as a
total function whose accesses are guarded by the key-range check
`fdrKeyOk` (an out-of-range key raises `KeyError` in the source). -/
structure StatsAggregate where
  fdrAggregate : ℤ → Aggregate
  sideAggregate : Side → Aggregate

/-- The key set of `fdr_aggregate`: the difficulties 1..5. -/
def fdrKeyOk (d : ℤ) : Prop :=
  1 ≤ d ∧ d ≤ 5

instance (d : ℤ) : Decidable (fdrKeyOk d) := by
  unfold fdrKeyOk
  infer_instance

/-- Embeds `StatsAggregate.__init__`: every bucket starts at
`Aggregate(0, 0)`. -/
def StatsAggregate.init : StatsAggregate :=
  ⟨fun _ => ⟨0, 0⟩, fun _ => ⟨0, 0⟩⟩

/-- Embeds the property `StatsAggregate.total`: the sum of the home
and away side buckets. -/
def StatsAggregate.total (s : StatsAggregate) : Aggregate :=
  (s.sideAggregate Side.home).add (s.sideAggregate Side.away)

/-- In-place `+=` on one side bucket. -/
def StatsAggregate.addSide (s : StatsAggregate) (sd : Side) (v : Aggregate) : StatsAggregate :=
  { s with sideAggregate := Function.update s.sideAggregate sd ((s.sideAggregate sd).add v) }

/-- In-place `+=` on one FDR bucket; accessing a key outside 1..5 is
a `KeyError`. -/
def StatsAggregate.addFdr (s : StatsAggregate) (d : ℤ) (v : Aggregate) : Option StatsAggregate :=
  if fdrKeyOk d then
    some { s with fdrAggregate := Function.update s.fdrAggregate d ((s.fdrAggregate d).add v) }
  else none

/-- The sum of the counts of the five FDR buckets (difficulties
1..5), as used by the FDR bucket sum invariant. -/
def StatsAggregate.fdrCountSum (s : StatsAggregate) : ℚ :=
  (Finset.Icc (1 : ℤ) 5).sum fun d => (s.fdrAggregate d).count

/-- Embeds `add_player_fixture` of the `PlayerXG/XA/DCStatsAggregate`
subclasses, parametrised by the metric extracted from the player
fixture: `side_aggregate[pf.side] += Aggregate(value, 1)` followed by
`fdr_aggregate[pf.team_fixture.difficulty] += Aggregate(value, 1)`. -/
def StatsAggregate.addPlayerFixtureWith (value : PlayerFixture → ℚ) (s : StatsAggregate)
    (pf : PlayerFixture) : Option StatsAggregate :=
  (s.addSide pf.side ⟨value pf, 1⟩).addFdr pf.teamDifficulty ⟨value pf, 1⟩

/-- Embeds `FixtureStatsAggregate`: a `StatsAggregate` plus the
per-gameweek fixture lists `fixtures` (dictionary with fixed key set
`{1,...,38}`, embedded as a total function with guarded access). -/
structure FixtureStatsAggregate extends StatsAggregate where
  fixtures : ℤ → List Fixture

/-- The key set of the per-gameweek dictionaries: gameweeks 1..38. -/
def gwKeyOk (g : ℤ) : Prop :=
  1 ≤ g ∧ g ≤ 38

instance (g : ℤ) : Decidable (gwKeyOk g) := by
  unfold gwKeyOk
  infer_instance

/-- Reading the per-gameweek dictionary: a key outside 1..38 raises
`KeyError`. -/
def gwDictGet (f : ℤ → List α) (g : ℤ) : Option (List α) :=
  if gwKeyOk g then some (f g) else none

/-- Embeds `FixtureStatsAggregate.__init__`. -/
def FixtureStatsAggregate.init : FixtureStatsAggregate :=
  ⟨StatsAggregate.init, fun _ => []⟩

/-- Embeds `FixtureStatsAggregate.add_fixture`: appends the fixture
to `fixtures[fixture.gameweek]`. -/
def FixtureStatsAggregate.addFixture (s : FixtureStatsAggregate) (fx : Fixture) :
    Option FixtureStatsAggregate :=
  if gwKeyOk fx.gameweek then
    some { s with fixtures := Function.update s.fixtures fx.gameweek (s.fixtures fx.gameweek ++ [fx]) }
  else none

/-- Embeds `FixtureStatsAggregate.add_home_stats`, parametrised by
the abstract `fixture_to_aggregate` method `f`: the home side bucket
and the FDR bucket of the home side's difficulty each receive
`f fixture 'home'`. -/
def FixtureStatsAggregate.addHomeStats (f : Fixture → Side → Aggregate)
    (s : FixtureStatsAggregate) (fx : Fixture) : Option FixtureStatsAggregate :=
  ((s.toStatsAggregate.addSide Side.home (f fx Side.home)).addFdr fx.home.difficulty
      (f fx Side.home)).map
    fun st => { s with toStatsAggregate := st }

/-- Embeds `FixtureStatsAggregate.add_away_stats`. -/
def FixtureStatsAggregate.addAwayStats (f : Fixture → Side → Aggregate)
    (s : FixtureStatsAggregate) (fx : Fixture) : Option FixtureStatsAggregate :=
  ((s.toStatsAggregate.addSide Side.away (f fx Side.away)).addFdr fx.away.difficulty
      (f fx Side.away)).map
    fun st => { s with toStatsAggregate := st }

/-- Embeds `CleanSheetStatsAggregate.fixture_to_aggregate`. -/
def csValue (fx : Fixture) (side : Side) : Aggregate :=
  ⟨if side = Side.home then fx.homeCleanSheet else fx.awayCleanSheet, 1⟩

/-- Embeds `XGFixtureStatsAggregate.fixture_to_aggregate`. -/
def xgValue (fx : Fixture) (side : Side) : Aggregate :=
  ⟨if side = Side.home then fx.home.expectedGoals else fx.away.expectedGoals, 1⟩

/-- Embeds `XAFixtureStatsAggregate.fixture_to_aggregate`. -/
def xaValue (fx : Fixture) (side : Side) : Aggregate :=
  ⟨if side = Side.home then fx.home.expectedAssists else fx.away.expectedAssists, 1⟩

/-- Embeds `DCFixtureStatsAggregate.fixture_to_aggregate`. -/
def dcValue (fx : Fixture) (side : Side) : Aggregate :=
  ⟨if side = Side.home then fx.home.defensiveContribution else fx.away.defensiveContribution, 1⟩

/-- Modelled from the spec: `PtsFixtureStatsAggregate` is imported
and used by `src/fpl/models/season.py` but its definition is not
under `src/`; following the uniform pattern of its siblings and spec
§3/§4.2 it aggregates the side's fantasy-points total per fixture. -/
def ptsValue (fx : Fixture) (side : Side) : Aggregate :=
  ⟨if side = Side.home then fx.home.totalPoints else fx.away.totalPoints, 1⟩

/-- One bucketed-statistics mutation, for stating the FDR bucket sum
invariant over arbitrary operation sequences. -/
inductive StatsOp where
  | addHome (fx : Fixture)
  | addAway (fx : Fixture)

/-- Runs one `StatsOp` against a `FixtureStatsAggregate`. -/
def FixtureStatsAggregate.applyOp (f : Fixture → Side → Aggregate)
    (s : FixtureStatsAggregate) : StatsOp → Option FixtureStatsAggregate
  | StatsOp.addHome fx => s.addHomeStats f fx
  | StatsOp.addAway fx => s.addAwayStats f fx

/-- Runs a sequence of `StatsOp`s, stopping at the first error. -/
def FixtureStatsAggregate.applyOps (f : Fixture → Side → Aggregate)
    (s : FixtureStatsAggregate) (ops : List StatsOp) : Option FixtureStatsAggregate :=
  ops.foldlM (FixtureStatsAggregate.applyOp f) s

/-- Embeds `TeamStats` from `src/fpl/models/season.py`: one
`FixtureStatsAggregate` per metric. -/
structure TeamStats where
  teamId : ℤ
  cleanSheetStats : FixtureStatsAggregate
  xgStats : FixtureStatsAggregate
  xaStats : FixtureStatsAggregate
  dcStats : FixtureStatsAggregate
  ptsStats : FixtureStatsAggregate

/-- Embeds `TeamStats.__init__`. -/
def TeamStats.init (teamId : ℤ) : TeamStats :=
  ⟨teamId, FixtureStatsAggregate.init, FixtureStatsAggregate.init, FixtureStatsAggregate.init,
    FixtureStatsAggregate.init, FixtureStatsAggregate.init⟩

/-- Embeds `TeamStats.add_fixture_and_stats`: the fixture is appended
to all five per-gameweek lists, then routed to the home-side buckets
if the team is the home team, to the away-side buckets if it is the
away team, and otherwise the call raises `ValueError`. -/
def TeamStats.addFixtureAndStats (ts : TeamStats) (fx : Fixture) : Option TeamStats := do
  let cs ← ts.cleanSheetStats.addFixture fx
  let xg ← ts.xgStats.addFixture fx
  let xa ← ts.xaStats.addFixture fx
  let dc ← ts.dcStats.addFixture fx
  let pts ← ts.ptsStats.addFixture fx
  if fx.home.teamId = ts.teamId then do
    let cs ← cs.addHomeStats csValue fx
    let xg ← xg.addHomeStats xgValue fx
    let xa ← xa.addHomeStats xaValue fx
    let dc ← dc.addHomeStats dcValue fx
    let pts ← pts.addHomeStats ptsValue fx
    some ⟨ts.teamId, cs, xg, xa, dc, pts⟩
  else if fx.away.teamId = ts.teamId then do
    let cs ← cs.addAwayStats csValue fx
    let xg ← xg.addAwayStats xgValue fx
    let xa ← xa.addAwayStats xaValue fx
    let dc ← dc.addAwayStats dcValue fx
    let pts ← pts.addAwayStats ptsValue fx
    some ⟨ts.teamId, cs, xg, xa, dc, pts⟩
  else none

/-- The shared shape of the rolling-window ("last N") loops of
`TeamStats.cs_last`, `TeamStats.xg_form`/`xa_form` and
`PlayerStats.last`: `assert n > 0`, then for `i in range(n)` iterate
over the per-gameweek list at key `gameweek - i` (a `KeyError` when
that key is outside 1..38), accumulating `value` and a count of 1 per
entry into an `Aggregate`. -/
def windowFold (fixtures : ℤ → List α) (value : α → ℚ) (gameweek n : ℤ) : Option Aggregate :=
  if 0 < n then
    (List.range n.toNat).foldlM
      (fun (acc : Aggregate) (i : ℕ) =>
        (gwDictGet fixtures (gameweek - (i : ℤ))).map
          fun entries => entries.foldl (fun a x => a.add ⟨value x, 1⟩) acc)
      ⟨0, 0⟩
  else none

/-- Embeds `TeamStats.cs_last(n)`; `gameweek` is the owning season's
current gameweek (`self.season.gameweek`). -/
def TeamStats.csLast (ts : TeamStats) (gameweek n : ℤ) : Option Aggregate :=
  windowFold ts.cleanSheetStats.fixtures
    (fun fx => if fx.home.teamId = ts.teamId then fx.homeCleanSheet else fx.awayCleanSheet)
    gameweek n

/-- Embeds `TeamStats.xg_form(n)`. -/
def TeamStats.xgForm (ts : TeamStats) (gameweek n : ℤ) : Option Aggregate :=
  windowFold ts.xgStats.fixtures
    (fun fx => if fx.home.teamId = ts.teamId then fx.home.expectedGoals else fx.away.expectedGoals)
    gameweek n

/-- Embeds `TeamStats.xa_form(n)`. -/
def TeamStats.xaForm (ts : TeamStats) (gameweek n : ℤ) : Option Aggregate :=
  windowFold ts.xaStats.fixtures
    (fun fx => if fx.home.teamId = ts.teamId then fx.home.expectedAssists else fx.away.expectedAssists)
    gameweek n

/-- The metric selector strings accepted by `PlayerStats.last`. -/
inductive Metric where
  | mp
  | xg
  | xa
  | dc
  | pts
  deriving DecidableEq, Repr

/-- The per-metric extraction dictionary inside `PlayerStats.last`. -/
def Metric.value : Metric → PlayerFixture → ℚ
  | Metric.mp => fun pf => pf.minutes
  | Metric.xg => fun pf => pf.expectedGoals
  | Metric.xa => fun pf => pf.expectedAssists
  | Metric.dc => fun pf => pf.defensiveContribution
  | Metric.pts => fun pf => pf.totalPoints

/-- Embeds `PlayerStats` from `src/fpl/models/season.py`. -/
structure PlayerStats where
  playerId : ℤ
  fixtures : ℤ → List PlayerFixture
  xgStats : StatsAggregate
  xaStats : StatsAggregate
  dcStats : StatsAggregate

/-- Embeds `PlayerStats.__init__`. -/
def PlayerStats.init (playerId : ℤ) : PlayerStats :=
  ⟨playerId, fun _ => [], StatsAggregate.init, StatsAggregate.init, StatsAggregate.init⟩

/-- Embeds `PlayerStats.add_player_fixture`: asserts the record
belongs to this player, appends it to `fixtures[pf.gameweek]` and
feeds the xG/xA/DC aggregates. -/
def PlayerStats.addPlayerFixture (ps : PlayerStats) (pf : PlayerFixture) : Option PlayerStats :=
  if pf.playerId = ps.playerId then
    if gwKeyOk pf.gameweek then do
      let xg ← ps.xgStats.addPlayerFixtureWith (fun q => q.expectedGoals) pf
      let xa ← ps.xaStats.addPlayerFixtureWith (fun q => q.expectedAssists) pf
      let dc ← ps.dcStats.addPlayerFixtureWith (fun q => q.defensiveContribution) pf
      some ⟨ps.playerId,
        Function.update ps.fixtures pf.gameweek (ps.fixtures pf.gameweek ++ [pf]),
        xg, xa, dc⟩
    else none
  else none

/-- Embeds `PlayerStats.last(n, metric)`; `gameweek` is the owning
season's current gameweek. -/
def PlayerStats.last (ps : PlayerStats) (gameweek n : ℤ) (m : Metric) : Option Aggregate :=
  windowFold ps.fixtures (Metric.value m) gameweek n

/-- Embeds `PlayerStats.share_last(n, metric)`.  `ts` is the team
stats of the player's own team (the source resolves it as
`self.season.team_stats[Query.player(self.player_id).team_id]`).
The division `player_metric.total / team_metric.total` is guarded by
`team_metric.count` being non-zero — not by the team total — so a
zero team total with a non-zero count raises `ZeroDivisionError`
(modelled by `none`). -/
def PlayerStats.shareLast (ps : PlayerStats) (ts : TeamStats) (gameweek n : ℤ) (m : Metric) :
    Option ℚ :=
  (ps.last gameweek n m).bind fun playerMetric =>
    (if m = Metric.xg then ts.xgForm gameweek n else ts.xaForm gameweek n).bind fun teamMetric =>
      if teamMetric.count = 0 then some 0
      else if teamMetric.total = 0 then none
      else some (playerMetric.total / teamMetric.total)

/-- Embeds `PlayerXGUltimateModel._predict`: the team model's
predicted aggregate ratio, apportioned by the player's xG share over
the window (`team_xg.p * share`), with sample count 1.  `teamXg` is
the result of `self.team_xg_model.predict_for_team(...)`. -/
def playerXGUltimatePredict (teamXg : Aggregate) (ps : PlayerStats) (ts : TeamStats)
    (gameweek n : ℤ) : Option Aggregate :=
  (ps.shareLast ts gameweek n Metric.xg).map fun share => ⟨teamXg.p * share, 1⟩

/-- Embeds `PlayerXAUltimateModel._predict`. -/
def playerXAUltimatePredict (teamXa : Aggregate) (ps : PlayerStats) (ts : TeamStats)
    (gameweek n : ℤ) : Option Aggregate :=
  (ps.shareLast ts gameweek n Metric.xa).map fun share => ⟨teamXa.p * share, 1⟩

/-- Embeds `Season` from `src/fpl/models/season.py`.  The
`team_stats` / `player_stats` dictionaries are embedded as partial
maps (`none` meaning "key absent", so a lookup of an unknown id is a
`KeyError`). -/
structure Season where
  gameweek : ℤ
  cleanSheetStats : FixtureStatsAggregate
  xgStats : FixtureStatsAggregate
  xaStats : FixtureStatsAggregate
  dcStats : FixtureStatsAggregate
  ptsStats : FixtureStatsAggregate
  teamStats : ℤ → Option TeamStats
  playerStats : ℤ → Option PlayerStats

/-- Embeds `Season.__init__`: gameweek 0, fresh aggregates, one
`TeamStats` per team id and one `PlayerStats` per player id (the
source obtains the id lists from `Query.all_teams()` /
`Query.all_players()`). -/
def Season.init (teamIds playerIds : List ℤ) : Season :=
  ⟨0, FixtureStatsAggregate.init, FixtureStatsAggregate.init, FixtureStatsAggregate.init,
    FixtureStatsAggregate.init, FixtureStatsAggregate.init,
    fun t => if t ∈ teamIds then some (TeamStats.init t) else none,
    fun p => if p ∈ playerIds then some (PlayerStats.init p) else none⟩

/-- The `add_fixture` / `add_home_stats` / `add_away_stats` triple
`Season.play` runs on each season-wide aggregate. -/
def FixtureStatsAggregate.addAll (f : Fixture → Side → Aggregate)
    (s : FixtureStatsAggregate) (fx : Fixture) : Option FixtureStatsAggregate := do
  let s ← s.addFixture fx
  let s ← s.addHomeStats f fx
  s.addAwayStats f fx

/-- The player loop at the end of each `Season.play` iteration: for
every supplied player-fixture record, look the player up in
`player_stats` and feed the record to it. -/
def Season.playerLoop (stats : ℤ → Option PlayerStats) (pfs : List PlayerFixture) :
    Option (ℤ → Option PlayerStats) :=
  pfs.foldlM
    (fun m pf => do
      let ps ← m pf.playerId
      let ps ← ps.addPlayerFixture pf
      some (Function.update m pf.playerId (some ps)))
    stats

/-- The body of the `for fixture in fixtures` loop of `Season.play`:
`assert fixture.gameweek == self.gameweek + 1`, then feed the fixture
to the five season-wide aggregates, to the home and away team stats,
and its player records (`pfByFixture fixture_id` embeds
`Query.player_fixtures_by_fixture(fixture.fixture_id)`) to the player
stats.  The gameweek counter is not touched here. -/
def Season.playFixture (pfByFixture : ℤ → List PlayerFixture) (s : Season) (fx : Fixture) :
    Option Season :=
  if fx.gameweek = s.gameweek + 1 then do
    let cs ← s.cleanSheetStats.addAll csValue fx
    let xg ← s.xgStats.addAll xgValue fx
    let xa ← s.xaStats.addAll xaValue fx
    let dc ← s.dcStats.addAll dcValue fx
    let pts ← s.ptsStats.addAll ptsValue fx
    let th ← s.teamStats fx.home.teamId
    let th ← th.addFixtureAndStats fx
    let teamStats1 := Function.update s.teamStats fx.home.teamId (some th)
    let ta ← teamStats1 fx.away.teamId
    let ta ← ta.addFixtureAndStats fx
    let pstats ← Season.playerLoop s.playerStats (pfByFixture fx.fixtureId)
    some ⟨s.gameweek, cs, xg, xa, dc, pts,
      Function.update teamStats1 fx.away.teamId (some ta), pstats⟩
  else none

/-- Embeds `Season.play(fixtures)`: processes the batch in order and
then increments the gameweek counter by exactly 1. -/
def Season.play (pfByFixture : ℤ → List PlayerFixture) (s : Season) (fixtures : List Fixture) :
    Option Season :=
  (fixtures.foldlM (Season.playFixture pfByFixture) s).map
    fun st => { st with gameweek := st.gameweek + 1 }

/-- N successive calls of `Season.play`, one batch per call. -/
def Season.playAll (pfByFixture : ℤ → List PlayerFixture) (s : Season)
    (batches : List (List Fixture)) : Option Season :=
  batches.foldlM (Season.play pfByFixture) s

/-- Embeds `FotmobAdapter._match_score` from
`src/fotmob/rotation/fotmob_adapter.py`: similarity score between the
source-B (FotMob) token list and an FPL candidate token list.  Python
sets are embedded as `Finset`s; the first-letter comparison
`tokens[0][0]` is embedded with `String.front` on the (always
non-empty, by the common-token guard) head tokens. -/
def matchScore (fotmobTokens fplTokens : List String) : ℚ :=
  if fplTokens = [] then 0
  else
    let common := fotmobTokens.toFinset ∩ fplTokens.toFinset
    if common = ∅ then 0
    else
      let score : ℚ := common.card
      let score := if fotmobTokens.getLast? = fplTokens.getLast? then score + 5 else score
      let score :=
        if fotmobTokens.head? = fplTokens.head? then score + 3
        else if fotmobTokens.head?.map String.front = fplTokens.head?.map String.front then
          score + 1
        else score
      let score :=
        if fotmobTokens.length ≤ fplTokens.length ∧
            fplTokens.take fotmobTokens.length = fotmobTokens then score + 4
        else score
      let score :=
        if fotmobTokens.length ≤ fplTokens.length ∧
            fplTokens.drop (fplTokens.length - fotmobTokens.length) = fotmobTokens then score + 2
        else score
      score

/-- The token-scoring formula exactly as the specification sentence
states it, for comparison with `matchScore`: shared tokens, `+5` for
equal last tokens, `+3` for equal first tokens (else `+1` for equal
first letters), `+4` when the candidate ENDS with the query's tokens
in order, `+2` when the candidate BEGINS with them. -/
def matchScoreSpec (q c : List String) : ℚ :=
  let shared := q.toFinset ∩ c.toFinset
  if shared = ∅ then 0
  else
    (shared.card : ℚ)
      + (if q.getLast? = c.getLast? then 5 else 0)
      + (if q.head? = c.head? then 3
         else if q.head?.map String.front = c.head?.map String.front then 1 else 0)
      + (if q.length ≤ c.length ∧ c.drop (c.length - q.length) = q then 4 else 0)
      + (if q.length ≤ c.length ∧ c.take q.length = q then 2 else 0)

/-- The amended token-scoring formula: as `matchScoreSpec` but with
the positional-run bonuses the way the code assigns them — `+4` when
the candidate BEGINS with the query's tokens in order and `+2` when
it ENDS with them. -/
def matchScoreAmendedSpec (q c : List String) : ℚ :=
  let shared := q.toFinset ∩ c.toFinset
  if shared = ∅ then 0
  else
    (shared.card : ℚ)
      + (if q.getLast? = c.getLast? then 5 else 0)
      + (if q.head? = c.head? then 3
         else if q.head?.map String.front = c.head?.map String.front then 1 else 0)
      + (if q.length ≤ c.length ∧ c.take q.length = q then 4 else 0)
      + (if q.length ≤ c.length ∧ c.drop (c.length - q.length) = q then 2 else 0)

/-- Python's `max(iterable, default=0.0)`. -/
def pythonMax (l : List ℚ) : ℚ :=
  match l with
  | [] => 0
  | x :: xs => xs.foldl max x

/-- The per-candidate score inside `_resolve_best_match`:
`max((self._match_score(fotmob_tokens, variant) for variant in
variants), default=0.0)`. -/
def bestVariantScore (q : List String) (variants : List (List String)) : ℚ :=
  pythonMax (variants.map (matchScore q))

/-- The `scored_matches` list of `_resolve_best_match`: every indexed
candidate whose best variant score is strictly positive, as a
`(score, player_id)` pair, in roster order. -/
def scoredMatches (q : List String) (index : List (ℤ × List (List String))) : List (ℚ × ℤ) :=
  index.filterMap fun pv =>
    let s := bestVariantScore q pv.2
    if 0 < s then some (s, pv.1) else none

/-- The comparator of `scored_matches.sort(key=lambda pair:
(-pair[0], pair[1]))`: descending score, ascending player id. -/
def rankLE (a b : ℚ × ℤ) : Bool :=
  decide (b.1 < a.1 ∨ (a.1 = b.1 ∧ a.2 ≤ b.2))

/-- Embeds `FotmobAdapter._resolve_best_match`: `Except.ok none` when
no candidate overlaps, the unique best candidate's id otherwise, and
an ambiguity `ValueError` — carrying the ids of the top (up to) 3
candidates, as the source's message does — when the second-best score
ties the best. -/
def resolveBestMatch (q : List String) (index : List (ℤ × List (List String))) :
    Except (List ℤ) (Option ℤ) :=
  let scored := scoredMatches q index
  if scored = [] then Except.ok none
  else
    let sorted := scored.mergeSort rankLE
    match sorted with
    | [] => Except.ok none
    | top :: rest =>
      match rest with
      | [] => Except.ok (some top.2)
      | second :: _ =>
        if second.1 = top.1 then Except.error ((sorted.take 3).map Prod.snd)
        else Except.ok (some top.2)

/-- Modelled from the spec: the `Gameweek` record consumed by
`build_gameweek_mapper` is defined outside `src/` (only its
construction in the loader and its `deadline_time` field are visible);
per spec §6 it is a `gameweek → deadline_timestamp` table entry.
Timestamps are embedded as integers (any linearly ordered time
representation works for `sorted` and `bisect_right`). -/
structure Gameweek where
  gameweek : ℤ
  deadlineTime : ℤ
  deriving DecidableEq, Repr

/-- Python's `bisect.bisect_right(sorted_list, x)`: the number of
elements `<= x`, which on a sorted list is the insertion point after
any existing entries equal to `x`. -/
def bisectRight (l : List ℤ) (x : ℤ) : ℕ :=
  (l.filter fun d => d ≤ x).length

/-- The sorted deadline list built by `build_gameweek_mapper`:
`sorted(gw.deadline_time for gw in gameweeks)`. -/
def sortedDeadlines (gws : List Gameweek) : List ℤ :=
  (gws.map Gameweek.deadlineTime).mergeSort fun a b => decide (a ≤ b)

/-- Embeds `build_gameweek_mapper`: raises `ValueError` when the
deadline list is empty, otherwise returns the closure
`lambda event_time: bisect_right(deadlines, event_time)`. -/
def buildGameweekMapper (gws : List Gameweek) : Option (ℤ → ℕ) :=
  let deadlines := sortedDeadlines gws
  if deadlines = [] then none
  else some fun t => bisectRight deadlines t

/-- Building the mapper and applying it to one timestamp. -/
def gwMapAt (gws : List Gameweek) (t : ℤ) : Option ℕ :=
  match buildGameweekMapper gws with
  | none => none
  | some m => some (m t)

/-- Embeds `PlayerAppearanceStatus` from
`src/fotmob/rotation/rotation_view.py`. -/
inductive PlayerAppearanceStatus where
  | started
  | benched
  | unavailable
  deriving DecidableEq, Repr

/-- Embeds `PlayerAppearance`; the `match` reference (a FotMob
`MatchDetails`, out of scope for the claims) is embedded as the match
id. -/
structure PlayerAppearance where
  fotmobPlayerId : ℤ
  status : PlayerAppearanceStatus
  matchId : ℤ
  deriving DecidableEq, Repr

/-- Embeds `PlayerSquadRole`. -/
structure PlayerSquadRole where
  fotmobPlayerId : ℤ
  appearances : List PlayerAppearance
  firstTeamThreshold : ℚ
  deriving DecidableEq, Repr

/-- Embeds the property `PlayerSquadRole.starts`. -/
def PlayerSquadRole.starts (r : PlayerSquadRole) : ℕ :=
  (r.appearances.filter fun a => a.status = PlayerAppearanceStatus.started).length

/-- Embeds the property `PlayerSquadRole.benched`. -/
def PlayerSquadRole.benched (r : PlayerSquadRole) : ℕ :=
  (r.appearances.filter fun a => a.status = PlayerAppearanceStatus.benched).length

/-- Embeds the property `PlayerSquadRole.unavailable`. -/
def PlayerSquadRole.unavailable (r : PlayerSquadRole) : ℕ :=
  (r.appearances.filter fun a => a.status = PlayerAppearanceStatus.unavailable).length

/-- Embeds the property `PlayerSquadRole.total_matches`. -/
def PlayerSquadRole.totalMatches (r : PlayerSquadRole) : ℕ :=
  r.appearances.length

/-- Embeds the property `PlayerSquadRole.start_ratio`: `0.0` when
there are no matches, else `starts / total_matches`. -/
def PlayerSquadRole.startRatio (r : PlayerSquadRole) : ℚ :=
  if r.totalMatches = 0 then 0 else (r.starts : ℚ) / (r.totalMatches : ℚ)

/-- Embeds the property `PlayerSquadRole.is_first_team`:
`start_ratio >= first_team_threshold`. -/
def PlayerSquadRole.isFirstTeam (r : PlayerSquadRole) : Bool :=
  decide (r.firstTeamThreshold ≤ r.startRatio)

/-- The balance between the FDR bucket counts and the side bucket
counts that bucketed additions preserve. -/
def fdrSideBalanced (s : StatsAggregate) : Prop :=
  s.fdrCountSum =
    (s.sideAggregate Side.home).count + (s.sideAggregate Side.away).count

/-- An empty player-fixture source (`Query.player_fixtures_by_fixture`
returning no records), for concrete replays. -/
def pfNone : ℤ → List PlayerFixture :=
  fun _ => []

/-- A concrete gameweek-1 fixture between teams 1 (home, difficulty
3, scored 2) and 2 (away, difficulty 4, scored 0). -/
def fxW : Fixture :=
  ⟨1, true, 1, ⟨1, 1, 3, some 2, 1, 1, 10, 6⟩, ⟨1, 2, 4, some 0, 0, 0, 8, 2⟩⟩

/-- The same fixture mislabelled with gameweek 5 (out of sequence for
a fresh season). -/
def fxBad : Fixture :=
  ⟨1, true, 5, ⟨1, 1, 3, some 2, 1, 1, 10, 6⟩, ⟨1, 2, 4, some 0, 0, 0, 8, 2⟩⟩

/-- A fresh two-team season. -/
def seasonW : Season :=
  Season.init [1, 2] []

/-- A concrete home-then-away addition sequence on a fresh bucketed
aggregate. -/
def opsW : List StatsOp :=
  [StatsOp.addHome fxW, StatsOp.addAway fxW]

/-- The bucketed aggregate after running `opsW` with the clean-sheet
extractor. -/
def fsaW : FixtureStatsAggregate :=
  (FixtureStatsAggregate.applyOps csValue FixtureStatsAggregate.init opsW).getD
    FixtureStatsAggregate.init

/-- Fresh team stats for team 1. -/
def tsW0 : TeamStats :=
  TeamStats.init 1

/-- Fresh player stats for player 10. -/
def psW0 : PlayerStats :=
  PlayerStats.init 10

/-- A gameweek-1 fixture in which home team 1 records zero expected
goals (so the team's xG sum over the window is 0 while its count is
1). -/
def fxZ : Fixture :=
  ⟨1, true, 1, ⟨1, 1, 3, some 1, 0, 0, 0, 0⟩, ⟨1, 2, 4, some 1, 1, 1, 0, 0⟩⟩

/-- Team 1's stats after playing `fxZ`. -/
def tsZ : TeamStats :=
  ((TeamStats.init 1).addFixtureAndStats fxZ).getD (TeamStats.init 1)

/-- A gameweek-1 fixture in which home team 1 records 2 expected
goals. -/
def fxU : Fixture :=
  ⟨1, true, 1, ⟨1, 1, 3, some 1, 2, 1, 0, 0⟩, ⟨1, 2, 4, some 1, 1, 1, 0, 0⟩⟩

/-- Team 1's stats after playing `fxU`. -/
def tsU : TeamStats :=
  ((TeamStats.init 1).addFixtureAndStats fxU).getD (TeamStats.init 1)

/-- Player 10's gameweek-1 record in `fxU`: 1 expected goal. -/
def pfU : PlayerFixture :=
  ⟨10, 1, 1, true, 5, 90, 2, 1, 0, 3⟩

/-- Player 10's stats after `pfU`. -/
def psU : PlayerStats :=
  ((PlayerStats.init 10).addPlayerFixture pfU).getD (PlayerStats.init 10)

/-- A roster index with two distinct players both named "silva". -/
def idxW : List (ℤ × List (List String)) :=
  [(1, [["silva"]]), (2, [["silva"]])]

/-- A two-entry gameweek table with deadlines 10 and 20. -/
def gwsW : List Gameweek :=
  [⟨1, 10⟩, ⟨2, 20⟩]

/-- A squad role with no appearances and the default 0.8 first-team
threshold. -/
def roleW : PlayerSquadRole :=
  ⟨7, [], 4 / 5⟩

theorem Aggregate.p_mul_count (a : Aggregate) (h : a.count = 0 → a.total = 0) :
    a.p * a.count = a.total := by
  unfold Aggregate.p
  split_ifs with h0
  · simp [h0, h h0]
  · exact div_mul_cancel₀ _ h0

/-- C9: merging `Aggregate`s (`__add__`) is commutative and
associative for all aggregates; and for two aggregates `a`, `b` in
which a zero count implies a zero total, the ratio `p` of their merge
is the count-weighted average of their ratios.  (As stated over
arbitrary aggregates the weighted-average part is false, see the
counterexample: an aggregate with `count == 0` but `total ≠ 0` has
ratio `0`, which forgets its total.) -/
theorem aggregate_merge_algebra (a b : Aggregate)
    (ha : a.count = 0 → a.total = 0) (hb : b.count = 0 → b.total = 0) :
    (∀ x y : Aggregate, x.add y = y.add x) ∧
    (∀ x y z : Aggregate, (x.add y).add z = x.add (y.add z)) ∧
    (a.add b).p = (a.p * a.count + b.p * b.count) / (a.count + b.count) := by
  refine ⟨?_, ?_, ?_⟩
  · intro x y
    unfold Aggregate.add
    rw [add_comm x.total, add_comm x.count]
  · intro x y z
    unfold Aggregate.add
    rw [add_assoc, add_assoc]
  · rw [Aggregate.p_mul_count a ha, Aggregate.p_mul_count b hb]
    show (if a.count + b.count = 0 then (0 : ℚ)
        else (a.total + b.total) / (a.count + b.count)) = _
    split_ifs with h0
    · rw [h0, div_zero]
    · rfl

/-- C9 counterexample: for `a = Aggregate(5, 0)` and
`b = Aggregate(1, 1)` the ratio of the merge is `6`, while the
count-weighted average of the ratios is `1`. -/
theorem aggregate_merge_ratio_counterexample :
    ((Aggregate.mk 5 0).add (Aggregate.mk 1 1)).p ≠
      ((Aggregate.mk 5 0).p * (Aggregate.mk 5 0).count +
        (Aggregate.mk 1 1).p * (Aggregate.mk 1 1).count) /
        ((Aggregate.mk 5 0).count + (Aggregate.mk 1 1).count) := by
  norm_num [Aggregate.p, Aggregate.add]

/-- C9 witness: the amended theorem applied to the concrete
aggregates `(2,1)`, `(3,2)`, `(4,3)`. -/
theorem aggregate_merge_algebra_witness :
    (Aggregate.mk 2 1).add (Aggregate.mk 3 2) =
        (Aggregate.mk 3 2).add (Aggregate.mk 2 1) ∧
    ((Aggregate.mk 2 1).add (Aggregate.mk 3 2)).add (Aggregate.mk 4 3) =
        (Aggregate.mk 2 1).add ((Aggregate.mk 3 2).add (Aggregate.mk 4 3)) ∧
    ((Aggregate.mk 2 1).add (Aggregate.mk 3 2)).p =
      ((Aggregate.mk 2 1).p * (Aggregate.mk 2 1).count +
        (Aggregate.mk 3 2).p * (Aggregate.mk 3 2).count) /
        ((Aggregate.mk 2 1).count + (Aggregate.mk 3 2).count) :=
  ⟨(aggregate_merge_algebra (Aggregate.mk 2 1) (Aggregate.mk 3 2)
      (by decide) (by decide)).1 (Aggregate.mk 2 1) (Aggregate.mk 3 2),
   (aggregate_merge_algebra (Aggregate.mk 2 1) (Aggregate.mk 3 2)
      (by decide) (by decide)).2.1 (Aggregate.mk 2 1) (Aggregate.mk 3 2) (Aggregate.mk 4 3),
   (aggregate_merge_algebra (Aggregate.mk 2 1) (Aggregate.mk 3 2)
      (by decide) (by decide)).2.2⟩

/-- C8: in `swa`, every input aggregate's weight is
`sqrt(1 + min(38, count))`; the weight of a count-0 aggregate is `1`,
the weight of a count-38 aggregate is `sqrt 39`, the weight is
non-decreasing in the count, and it is capped at count 38 (count 100
gets the same weight as count 38). -/
theorem swa_shrinkage_weighting (c₁ c₂ : ℚ) (h : c₁ ≤ c₂) :
    swaWeight 0 = 1 ∧
    swaWeight 38 = Real.sqrt 39 ∧
    swaWeight c₁ ≤ swaWeight c₂ ∧
    swaWeight 100 = swaWeight 38 ∧
    ∀ l : List Aggregate, swa l = wa (l.map fun a => (a, swaWeight a.count)) := by
  refine ⟨?_, ?_, ?_, ?_, fun _ => rfl⟩
  · unfold swaWeight
    norm_num
  · unfold swaWeight
    norm_num
  · unfold swaWeight
    apply Real.sqrt_le_sqrt
    have h' : (1 + min 38 c₁ : ℚ) ≤ (1 + min 38 c₂ : ℚ) :=
      add_le_add_left (min_le_min (le_refl 38) h) 1
    exact_mod_cast h'
  · unfold swaWeight
    norm_num

/-- C8 witness: the theorem applied at counts `3 ≤ 5`. -/
theorem swa_shrinkage_weighting_witness :
    swaWeight 0 = 1 ∧
    swaWeight 38 = Real.sqrt 39 ∧
    swaWeight 3 ≤ swaWeight 5 ∧
    swaWeight 100 = swaWeight 38 :=
  ⟨(swa_shrinkage_weighting 3 5 (by decide)).1,
   (swa_shrinkage_weighting 3 5 (by decide)).2.1,
   (swa_shrinkage_weighting 3 5 (by decide)).2.2.1,
   (swa_shrinkage_weighting 3 5 (by decide)).2.2.2.1⟩

theorem StatsAggregate.addFdr_eq {s s' : StatsAggregate} {d : ℤ} {v : Aggregate}
    (h : s.addFdr d v = some s') :
    s'.fdrCountSum = s.fdrCountSum + v.count ∧ s'.sideAggregate = s.sideAggregate := by
  unfold StatsAggregate.addFdr at h
  split_ifs at h with hd
  · obtain rfl : _ = s' := Option.some.inj h
    refine ⟨?_, rfl⟩
    have hmem : d ∈ Finset.Icc (1 : ℤ) 5 := Finset.mem_Icc.mpr hd
    have hfun : (fun x => (Function.update s.fdrAggregate d ((s.fdrAggregate d).add v) x).count)
        = Function.update (fun x => (s.fdrAggregate x).count) d ((s.fdrAggregate d).add v).count := by
      funext x
      simp [Function.update_apply, apply_ite Aggregate.count]
    show (Finset.Icc (1 : ℤ) 5).sum
        (fun x => (Function.update s.fdrAggregate d ((s.fdrAggregate d).add v) x).count) = _
    rw [hfun, Finset.sum_update_of_mem hmem]
    unfold StatsAggregate.fdrCountSum
    rw [Finset.sum_eq_sum_diff_singleton_add hmem (fun x => (s.fdrAggregate x).count)]
    show (s.fdrAggregate d).count + v.count + _ = _
    ring

theorem StatsAggregate.addSide_counts (s : StatsAggregate) (sd : Side) (v : Aggregate) :
    ((s.addSide sd v).sideAggregate Side.home).count +
        ((s.addSide sd v).sideAggregate Side.away).count =
      (s.sideAggregate Side.home).count + (s.sideAggregate Side.away).count + v.count := by
  cases sd
  case home =>
    show ((s.sideAggregate Side.home).add v).count + (s.sideAggregate Side.away).count = _
    show (s.sideAggregate Side.home).count + v.count + (s.sideAggregate Side.away).count = _
    ring
  case away =>
    show (s.sideAggregate Side.home).count + ((s.sideAggregate Side.away).add v).count = _
    show (s.sideAggregate Side.home).count + ((s.sideAggregate Side.away).count + v.count) = _
    ring

theorem StatsAggregate.addSideFdr_balanced {s₀ : StatsAggregate} {sd : Side} {d : ℤ}
    {v : Aggregate} {st : StatsAggregate}
    (hst : (s₀.addSide sd v).addFdr d v = some st)
    (hb : fdrSideBalanced s₀) : fdrSideBalanced st := by
  obtain ⟨hsum, hside⟩ := StatsAggregate.addFdr_eq hst
  unfold fdrSideBalanced at hb ⊢
  rw [hsum, hside, StatsAggregate.addSide_counts s₀ sd v]
  show s₀.fdrCountSum + v.count = _
  rw [hb]

theorem FixtureStatsAggregate.applyOp_balanced {f : Fixture → Side → Aggregate}
    {s s' : FixtureStatsAggregate} {op : StatsOp}
    (h : FixtureStatsAggregate.applyOp f s op = some s')
    (hb : fdrSideBalanced s.toStatsAggregate) : fdrSideBalanced s'.toStatsAggregate := by
  cases op with
  | addHome fx =>
    unfold FixtureStatsAggregate.applyOp FixtureStatsAggregate.addHomeStats at h
    rw [Option.map_eq_some'] at h
    obtain ⟨st, hst, hrec⟩ := h
    obtain rfl : _ = s' := hrec
    exact StatsAggregate.addSideFdr_balanced hst hb
  | addAway fx =>
    unfold FixtureStatsAggregate.applyOp FixtureStatsAggregate.addAwayStats at h
    rw [Option.map_eq_some'] at h
    obtain ⟨st, hst, hrec⟩ := h
    obtain rfl : _ = s' := hrec
    exact StatsAggregate.addSideFdr_balanced hst hb

theorem FixtureStatsAggregate.applyOps_balanced {f : Fixture → Side → Aggregate} :
    ∀ (ops : List StatsOp) (s s' : FixtureStatsAggregate),
      FixtureStatsAggregate.applyOps f s ops = some s' →
      fdrSideBalanced s.toStatsAggregate → fdrSideBalanced s'.toStatsAggregate := by
  intro ops
  induction ops with
  | nil =>
    intro s s' h hb
    unfold FixtureStatsAggregate.applyOps at h
    rw [List.foldlM_nil] at h
    obtain rfl : s = s' := Option.some.inj h
    exact hb
  | cons op rest ih =>
    intro s s' h hb
    unfold FixtureStatsAggregate.applyOps at h
    rw [List.foldlM_cons] at h
    simp only [Option.bind_eq_bind, Option.bind_eq_some] at h
    obtain ⟨s₁, h₁, h₂⟩ := h
    exact ih s₁ s' h₂ (FixtureStatsAggregate.applyOp_balanced h₁ hb)

/-- C7: after any successful sequence of `add_home_stats` /
`add_away_stats` operations on a fresh bucketed aggregate (with an
arbitrary `fixture_to_aggregate` extractor `f`), the total
aggregate's count equals the sum of the counts of the five FDR
buckets, and also equals the sum of the home-side and away-side
counts. -/
theorem fdr_bucket_sum_invariant (f : Fixture → Side → Aggregate) (ops : List StatsOp)
    (s : FixtureStatsAggregate)
    (h : FixtureStatsAggregate.applyOps f FixtureStatsAggregate.init ops = some s) :
    s.toStatsAggregate.total.count = s.toStatsAggregate.fdrCountSum ∧
    s.toStatsAggregate.total.count =
      (s.sideAggregate Side.home).count + (s.sideAggregate Side.away).count := by
  have hinit : fdrSideBalanced FixtureStatsAggregate.init.toStatsAggregate := by
    unfold fdrSideBalanced StatsAggregate.fdrCountSum
    simp [FixtureStatsAggregate.init, StatsAggregate.init]
  have hb := FixtureStatsAggregate.applyOps_balanced ops FixtureStatsAggregate.init s h hinit
  unfold fdrSideBalanced at hb
  constructor
  · rw [hb]
    rfl
  · rfl

/-- C7 witness: the invariant evaluated after a concrete
home-then-away addition of a clean-sheet fixture. -/
theorem fdr_bucket_sum_invariant_witness :
    fsaW.toStatsAggregate.total.count = fsaW.toStatsAggregate.fdrCountSum ∧
    fsaW.toStatsAggregate.total.count =
      (fsaW.sideAggregate Side.home).count + (fsaW.sideAggregate Side.away).count :=
  fdr_bucket_sum_invariant csValue opsW fsaW (by rfl)

theorem Season.playFixture_gameweek {pf : ℤ → List PlayerFixture} {s s' : Season} {fx : Fixture}
    (h : Season.playFixture pf s fx = some s') : s'.gameweek = s.gameweek := by
  unfold Season.playFixture at h
  split_ifs at h with hgw
  simp only [Option.bind_eq_bind, Option.bind_eq_some, Option.some.injEq] at h
  obtain ⟨cs, -, xg, -, xa, -, dc, -, pts, -, th, -, th₂, -, ta, -, ta₂, -, ps₂, -, hfin⟩ := h
  rw [← hfin]

theorem Season.playFixture_bad {pf : ℤ → List PlayerFixture} {s : Season} {fx : Fixture}
    (h : fx.gameweek ≠ s.gameweek + 1) : Season.playFixture pf s fx = none := by
  unfold Season.playFixture
  rw [if_neg h]

theorem Season.foldFixtures_gameweek {pf : ℤ → List PlayerFixture} :
    ∀ (l : List Fixture) (s s' : Season),
      l.foldlM (Season.playFixture pf) s = some s' → s'.gameweek = s.gameweek := by
  intro l
  induction l with
  | nil =>
    intro s s' h
    rw [List.foldlM_nil] at h
    obtain rfl : s = s' := Option.some.inj h
    rfl
  | cons fx rest ih =>
    intro s s' h
    rw [List.foldlM_cons] at h
    simp only [Option.bind_eq_bind, Option.bind_eq_some] at h
    obtain ⟨s₁, h₁, h₂⟩ := h
    rw [ih s₁ s' h₂, Season.playFixture_gameweek h₁]

theorem Season.foldFixtures_bad {pf : ℤ → List PlayerFixture} :
    ∀ (l : List Fixture) (s : Season), (∃ fx ∈ l, fx.gameweek ≠ s.gameweek + 1) →
      l.foldlM (Season.playFixture pf) s = none := by
  intro l
  induction l with
  | nil =>
    intro s h
    simp at h
  | cons fx rest ih =>
    intro s h
    obtain ⟨fx', hmem, hne⟩ := h
    rw [List.foldlM_cons]
    rcases List.mem_cons.mp hmem with heq | hmem'
    · subst heq
      rw [Season.playFixture_bad hne]
      rfl
    · cases hstep : Season.playFixture pf s fx with
      | none => rfl
      | some s₁ =>
        show rest.foldlM (Season.playFixture pf) s₁ = none
        refine ih s₁ ⟨fx', hmem', ?_⟩
        rw [Season.playFixture_gameweek hstep]
        exact hne

theorem Season.play_gameweek {pf : ℤ → List PlayerFixture} {s : Season} {batch : List Fixture}
    {s' : Season} (h : Season.play pf s batch = some s') : s'.gameweek = s.gameweek + 1 := by
  unfold Season.play at h
  rw [Option.map_eq_some'] at h
  obtain ⟨t, hfold, hmap⟩ := h
  rw [← hmap]
  show t.gameweek + 1 = s.gameweek + 1
  rw [Season.foldFixtures_gameweek batch s t hfold]

theorem Season.playAll_gameweek {pf : ℤ → List PlayerFixture} :
    ∀ (batches : List (List Fixture)) (s sN : Season),
      Season.playAll pf s batches = some sN → sN.gameweek = s.gameweek + batches.length := by
  intro batches
  induction batches with
  | nil =>
    intro s sN h
    unfold Season.playAll at h
    rw [List.foldlM_nil] at h
    obtain rfl : s = sN := Option.some.inj h
    simp
  | cons batch rest ih =>
    intro s sN h
    unfold Season.playAll at h
    rw [List.foldlM_cons] at h
    simp only [Option.bind_eq_bind, Option.bind_eq_some] at h
    obtain ⟨s₁, h₁, h₂⟩ := h
    have hN := ih s₁ sN h₂
    rw [hN, Season.play_gameweek h₁]
    simp only [List.length_cons]
    push_cast
    ring

/-- C1: `Season.play` raises when any fixture of the batch is not
labelled with the season's current gameweek plus 1; a successful call
increments the gameweek counter by exactly 1 whatever the batch size;
and N successful calls starting from a season with gameweek 0 leave
the counter at N. -/
theorem season_play_sequencing (pfByFixture : ℤ → List PlayerFixture) (batch : List Fixture)
    (s s' : Season) :
    ((∃ fx ∈ batch, fx.gameweek ≠ s.gameweek + 1) →
      Season.play pfByFixture s batch = none) ∧
    (Season.play pfByFixture s batch = some s' → s'.gameweek = s.gameweek + 1) ∧
    (∀ (batches : List (List Fixture)) (s₀ sN : Season), s₀.gameweek = 0 →
      Season.playAll pfByFixture s₀ batches = some sN → sN.gameweek = batches.length) := by
  refine ⟨?_, fun h => Season.play_gameweek h, ?_⟩
  · intro hbad
    unfold Season.play
    rw [Season.foldFixtures_bad batch s hbad]
    rfl
  · intro batches s₀ sN h0 hall
    rw [Season.playAll_gameweek batches s₀ sN hall, h0, zero_add]

/-- C1 witness: on a fresh two-team season, playing a gameweek-5
fixture raises, while playing the corresponding gameweek-1 fixture
succeeds and leaves the counter at 1. -/
theorem season_play_sequencing_witness :
    Season.play pfNone seasonW [fxBad] = none ∧
    (Season.play pfNone seasonW [fxW]).map Season.gameweek = some 1 :=
  ⟨(season_play_sequencing pfNone [fxBad] seasonW seasonW).1 ⟨fxBad, by decide, by decide⟩,
   by decide⟩

theorem Aggregate.foldl_add_count (v : α → ℚ) :
    ∀ (l : List α) (acc : Aggregate),
      (l.foldl (fun a x => a.add ⟨v x, 1⟩) acc).count = acc.count + l.length := by
  intro l
  induction l with
  | nil =>
    intro acc
    simp
  | cons x xs ih =>
    intro acc
    rw [List.foldl_cons, ih]
    show acc.count + 1 + (xs.length : ℚ) = _
    simp only [List.length_cons]
    push_cast
    ring

theorem windowFold_none_of_nonpos (f : ℤ → List α) (v : α → ℚ) (g : ℤ) {n : ℤ}
    (h : n ≤ 0) : windowFold f v g n = none := by
  unfold windowFold
  rw [if_neg (not_lt.mpr h)]

theorem windowFold_some (f : ℤ → List α) (v : α → ℚ) (g : ℤ) {n : ℤ} (hn : 0 < n)
    (hkeys : ∀ i : ℕ, i < n.toNat → gwKeyOk (g - (i : ℤ))) :
    ∃ a, windowFold f v g n = some a ∧
      a.count = ((List.range n.toNat).map fun (i : ℕ) => ((f (g - (i : ℤ))).length : ℚ)).sum := by
  unfold windowFold
  rw [if_pos hn]
  have main : ∀ (idxs : List ℕ) (acc : Aggregate), (∀ i ∈ idxs, gwKeyOk (g - (i : ℤ))) →
      ∃ a, idxs.foldlM
          (fun (acc : Aggregate) (i : ℕ) => (gwDictGet f (g - (i : ℤ))).map
            fun entries => entries.foldl (fun a x => a.add ⟨v x, 1⟩) acc) acc = some a ∧
        a.count = acc.count + (idxs.map fun (i : ℕ) => ((f (g - (i : ℤ))).length : ℚ)).sum := by
    intro idxs
    induction idxs with
    | nil =>
      intro acc _
      refine ⟨acc, by rw [List.foldlM_nil]; rfl, by simp⟩
    | cons i rest ih =>
      intro acc hk
      rw [List.foldlM_cons]
      have hki : gwKeyOk (g - (i : ℤ)) := hk i (List.mem_cons_self i rest)
      rw [gwDictGet, if_pos hki]
      obtain ⟨a, ha, hc⟩ :=
        ih (((f (g - (i : ℤ)))).foldl (fun a x => a.add ⟨v x, 1⟩) acc)
          (fun j hj => hk j (List.mem_cons_of_mem i hj))
      refine ⟨a, ha, ?_⟩
      rw [hc, Aggregate.foldl_add_count, List.map_cons, List.sum_cons]
      ring
  obtain ⟨a, ha, hc⟩ :=
    main (List.range n.toNat) ⟨0, 0⟩ (fun i hi => hkeys i (List.mem_range.mp hi))
  refine ⟨a, ha, ?_⟩
  rw [hc]
  show 0 + _ = _
  rw [zero_add]

theorem windowFold_none_of_badkey (f : ℤ → List α) (v : α → ℚ) (g : ℤ) {n : ℤ} (hn : 0 < n)
    {i : ℕ} (hi : i < n.toNat) (hbad : ¬ gwKeyOk (g - (i : ℤ))) :
    windowFold f v g n = none := by
  unfold windowFold
  rw [if_pos hn]
  have main : ∀ (idxs : List ℕ) (acc : Aggregate), (∃ j ∈ idxs, ¬ gwKeyOk (g - (j : ℤ))) →
      idxs.foldlM
        (fun (acc : Aggregate) (i : ℕ) => (gwDictGet f (g - (i : ℤ))).map
          fun entries => entries.foldl (fun a x => a.add ⟨v x, 1⟩) acc) acc = none := by
    intro idxs
    induction idxs with
    | nil =>
      intro acc h
      simp at h
    | cons j rest ih =>
      intro acc h
      obtain ⟨j', hmem, hbad'⟩ := h
      rw [List.foldlM_cons]
      rcases List.mem_cons.mp hmem with heq | hmem'
      · subst heq
        rw [gwDictGet, if_neg hbad']
        rfl
      · by_cases hkj : gwKeyOk (g - (j : ℤ))
        · rw [gwDictGet, if_pos hkj]
          exact ih _ ⟨j', hmem', hbad'⟩
        · rw [gwDictGet, if_neg hkj]
          rfl
  exact main (List.range n.toNat) ⟨0, 0⟩ ⟨i, List.mem_range.mpr hi, hbad⟩

/-- C3: the rolling-window queries (`cs_last` on TeamStats,
`last` on PlayerStats) raise on `n <= 0`; with at least `n` gameweeks
of history (`n <= g <= 38`) they succeed and their count is exactly
the number of fixtures observed in the window; but with fewer than
`n` gameweeks of history (`g < n`) they raise a `KeyError` on the
per-gameweek dictionary instead of returning a shorter window (the
claim's no-padding-no-error behaviour does not hold). -/
theorem rolling_window_queries (ts : TeamStats) (ps : PlayerStats) (g n : ℤ) (m : Metric) :
    (n ≤ 0 → ts.csLast g n = none ∧ ps.last g n m = none) ∧
    (0 < n → n ≤ g → g ≤ 38 →
      (∃ a, ts.csLast g n = some a ∧
        a.count = ((List.range n.toNat).map fun (i : ℕ) =>
          ((ts.cleanSheetStats.fixtures (g - (i : ℤ))).length : ℚ)).sum) ∧
      (∃ a, ps.last g n m = some a ∧
        a.count = ((List.range n.toNat).map fun (i : ℕ) =>
          ((ps.fixtures (g - (i : ℤ))).length : ℚ)).sum)) ∧
    (0 < n → g < n → ts.csLast g n = none ∧ ps.last g n m = none) := by
  refine ⟨?_, ?_, ?_⟩
  · intro hn
    exact ⟨windowFold_none_of_nonpos _ _ _ hn, windowFold_none_of_nonpos _ _ _ hn⟩
  · intro hn hng hg
    have hkeys : ∀ i : ℕ, i < n.toNat → gwKeyOk (g - (i : ℤ)) := by
      intro i hi
      unfold gwKeyOk
      omega
    exact ⟨windowFold_some _ _ _ hn hkeys, windowFold_some _ _ _ hn hkeys⟩
  · intro hn hgn
    have hi : g.toNat < n.toNat := by omega
    have hbad : ¬ gwKeyOk (g - (g.toNat : ℤ)) := by
      unfold gwKeyOk
      omega
    exact ⟨windowFold_none_of_badkey _ _ _ hn hi hbad,
      windowFold_none_of_badkey _ _ _ hn hi hbad⟩

/-- C3 counterexample: on a fresh season (current gameweek 0, i.e.
fewer than `n = 1` gameweeks of history) `cs_last(1)` and
`last(1, 'xg')` raise a `KeyError` (key 0 of the 1..38 gameweek
dictionary) instead of returning an empty-window aggregate. -/
theorem rolling_window_short_counterexample :
    (0 : ℤ) < 1 ∧ tsW0.csLast 0 1 = none ∧ psW0.last 0 1 Metric.xg = none := by
  refine ⟨by decide, rfl, rfl⟩

/-- C3 witness: the amended theorem applied concretely — `n = 0`
raises, and a fully covered window (`n = 2 <= g = 2`) succeeds. -/
theorem rolling_window_queries_witness :
    tsW0.csLast 3 0 = none ∧ psW0.last 3 0 Metric.xg = none ∧
    (tsW0.csLast 2 2).isSome = true := by
  refine ⟨((rolling_window_queries tsW0 psW0 3 0 Metric.xg).1 (by decide)).1,
    ((rolling_window_queries tsW0 psW0 3 0 Metric.xg).1 (by decide)).2, ?_⟩
  obtain ⟨a, ha, -⟩ :=
    ((rolling_window_queries tsW0 psW0 2 2 Metric.xg).2.1 (by decide) (by decide) (by decide)).1
  rw [ha]
  rfl

/-- C5: the player's share used by the ultimate xG/xA models.  With
`pm` the player's window aggregate and `tm` the team's window
aggregate: the share is `pm.total / tm.total` when the team window
has observations and a non-zero total, and `0` when the team window
has no observations (`count == 0`); but when the team's metric sum is
`0` with a non-zero count the code divides by zero and raises
`ZeroDivisionError` — the claim's "0 when the team's sum is 0" only
holds through the count guard.  The ultimate models consume exactly
this share, scaled by the team model's predicted ratio. -/
theorem player_share_last (ps : PlayerStats) (ts : TeamStats) (g n : ℤ) (m : Metric)
    (pm tm : Aggregate) (hp : ps.last g n m = some pm)
    (ht : (if m = Metric.xg then ts.xgForm g n else ts.xaForm g n) = some tm) :
    (tm.count = 0 → ps.shareLast ts g n m = some 0) ∧
    (tm.count ≠ 0 → tm.total ≠ 0 →
      ps.shareLast ts g n m = some (pm.total / tm.total)) ∧
    (tm.count ≠ 0 → tm.total = 0 → ps.shareLast ts g n m = none) ∧
    (∀ teamXg : Aggregate, playerXGUltimatePredict teamXg ps ts g n =
      (ps.shareLast ts g n Metric.xg).map fun share => ⟨teamXg.p * share, 1⟩) ∧
    (∀ teamXa : Aggregate, playerXAUltimatePredict teamXa ps ts g n =
      (ps.shareLast ts g n Metric.xa).map fun share => ⟨teamXa.p * share, 1⟩) := by
  have hshare : ps.shareLast ts g n m =
      if tm.count = 0 then some 0
      else if tm.total = 0 then none
      else some (pm.total / tm.total) := by
    unfold PlayerStats.shareLast
    rw [hp, ht]
    rfl
  refine ⟨?_, ?_, ?_, fun _ => rfl, fun _ => rfl⟩
  · intro h0
    rw [hshare, if_pos h0]
  · intro h0 h1
    rw [hshare, if_neg h0, if_neg h1]
  · intro h0 h1
    rw [hshare, if_neg h0, if_pos h1]

/-- C5 counterexample: team 1 has one observed gameweek-1 fixture
with zero expected goals (window sum 0, window count 1); the
resolver's division `player_total / team_total` is then a
`ZeroDivisionError`, not the claimed share of 0. -/
theorem player_share_zero_sum_counterexample :
    tsZ.xgForm 1 1 = some (Aggregate.mk 0 1) ∧
    psW0.shareLast tsZ 1 1 Metric.xg ≠ some 0 ∧
    psW0.shareLast tsZ 1 1 Metric.xg = none := by
  have hxg : tsZ.xgForm 1 1 = some (Aggregate.mk 0 1) := by
    norm_num [TeamStats.xgForm, windowFold, gwDictGet, gwKeyOk, tsZ,
      TeamStats.addFixtureAndStats, TeamStats.init, FixtureStatsAggregate.addFixture,
      FixtureStatsAggregate.addHomeStats, FixtureStatsAggregate.addAwayStats,
      FixtureStatsAggregate.init, StatsAggregate.init, StatsAggregate.addSide,
      StatsAggregate.addFdr, fdrKeyOk, fxZ, csValue, xgValue, xaValue, dcValue, ptsValue,
      List.range_succ, Function.update, Aggregate.add]
  have hlast : psW0.last 1 1 Metric.xg = some (Aggregate.mk 0 0) := by
    norm_num [PlayerStats.last, windowFold, gwDictGet, gwKeyOk, psW0, PlayerStats.init,
      List.range_succ]
  have hshare : psW0.shareLast tsZ 1 1 Metric.xg = none := by
    unfold PlayerStats.shareLast
    rw [hlast, Option.some_bind', if_pos rfl, hxg, Option.some_bind']
    norm_num
  refine ⟨hxg, ?_, hshare⟩
  rw [hshare]
  intro h
  exact Option.noConfusion h

/-- C5 witness: the theorem applied to a concrete state where player
10 produced 1 of team 1's 2 expected goals over the window. -/
theorem player_share_last_witness :
    psU.shareLast tsU 1 1 Metric.xg =
      some ((Aggregate.mk 1 1).total / (Aggregate.mk 2 1).total) := by
  have hp : psU.last 1 1 Metric.xg = some (Aggregate.mk 1 1) := by
    norm_num [PlayerStats.last, windowFold, gwDictGet, gwKeyOk, psU, PlayerStats.init,
      PlayerStats.addPlayerFixture, StatsAggregate.addPlayerFixtureWith, StatsAggregate.init,
      StatsAggregate.addSide, StatsAggregate.addFdr, fdrKeyOk, pfU, Metric.value,
      List.range_succ, Function.update, Aggregate.add]
  have ht : (if Metric.xg = Metric.xg then tsU.xgForm 1 1 else tsU.xaForm 1 1)
      = some (Aggregate.mk 2 1) := by
    rw [if_pos rfl]
    norm_num [TeamStats.xgForm, windowFold, gwDictGet, gwKeyOk, tsU,
      TeamStats.addFixtureAndStats, TeamStats.init, FixtureStatsAggregate.addFixture,
      FixtureStatsAggregate.addHomeStats, FixtureStatsAggregate.addAwayStats,
      FixtureStatsAggregate.init, StatsAggregate.init, StatsAggregate.addSide,
      StatsAggregate.addFdr, fdrKeyOk, fxU, csValue, xgValue, xaValue, dcValue, ptsValue,
      List.range_succ, Function.update, Aggregate.add]
  exact ((player_share_last psU tsU 1 1 Metric.xg (Aggregate.mk 1 1) (Aggregate.mk 2 1)
    hp ht).2.1) (by norm_num) (by norm_num)

/-- C2 (amended): the token score computed by `_match_score` equals
the specification formula with the two positional-run bonuses
swapped: `+4` is awarded for the candidate BEGINNING with the query
tokens and `+2` for the candidate ENDING with them (the claim states
the reverse assignment; see the counterexample). -/
theorem match_score_formula (q c : List String) :
    matchScore q c = matchScoreAmendedSpec q c := by
  by_cases hc : c = []
  · subst hc
    simp [matchScore, matchScoreAmendedSpec]
  · simp only [matchScore, matchScoreAmendedSpec]
    rw [if_neg hc]
    split_ifs <;> ring

/-- C2 counterexample: for query tokens `["b"]` against candidate
tokens `["a", "b"]` (a suffix match that is not a first-token match)
the code scores `1 + 5 + 2 = 8`, while the claim's formula gives
`1 + 5 + 4 = 10`. -/
theorem match_score_counterexample :
    matchScore ["b"] ["a", "b"] = 8 ∧
    matchScoreSpec ["b"] ["a", "b"] = 10 ∧
    matchScore ["b"] ["a", "b"] ≠ matchScoreSpec ["b"] ["a", "b"] := by
  have h1 : matchScore ["b"] ["a", "b"] = 8 := by
    norm_num [matchScore, String.front, show ("a" = "b") = False by simp,
      show ("b" = "a") = False by simp, show ("b".get 0 = "a".get 0) = False by decide,
      show (["a", "b"] = ([] : List String)) = False by simp]
  have h2 : matchScoreSpec ["b"] ["a", "b"] = 10 := by
    norm_num [matchScoreSpec, String.front, show ("a" = "b") = False by simp,
      show ("b" = "a") = False by simp, show ("b".get 0 = "a".get 0) = False by decide]
  refine ⟨h1, h2, ?_⟩
  rw [h1, h2]
  norm_num

/-- C10: a `PlayerSquadRole` with an empty (filtered) appearance list
has `start_ratio = 0` — the `starts / total_matches` division is
guarded by the emptiness check — and is not first-team for any
strictly positive threshold. -/
theorem squad_role_empty (r : PlayerSquadRole) (h : r.appearances = []) :
    r.startRatio = 0 ∧ (0 < r.firstTeamThreshold → r.isFirstTeam = false) := by
  have h0 : r.totalMatches = 0 := by
    rw [PlayerSquadRole.totalMatches, h]
    rfl
  have hr : r.startRatio = 0 := by
    rw [PlayerSquadRole.startRatio, if_pos h0]
  refine ⟨hr, fun hpos => ?_⟩
  rw [PlayerSquadRole.isFirstTeam, hr]
  exact decide_eq_false (not_le.mpr hpos)

/-- C10 witness: the theorem applied to a concrete appearance-free
role with the default threshold 0.8. -/
theorem squad_role_empty_witness :
    roleW.startRatio = 0 ∧ roleW.isFirstTeam = false :=
  ⟨(squad_role_empty roleW rfl).1,
   (squad_role_empty roleW rfl).2 (by norm_num [roleW])⟩

theorem sorted_filter_le_split (t : ℤ) :
    ∀ L : List ℤ, L.Pairwise (fun a b => a ≤ b) →
      (∀ d ∈ L.take (L.filter fun d => d ≤ t).length, d ≤ t) ∧
      (∀ d ∈ L.drop (L.filter fun d => d ≤ t).length, t < d) := by
  intro L
  induction L with
  | nil =>
    intro _
    constructor <;> intro d hd <;> simp at hd
  | cons a L₂ ih =>
    intro hp
    rw [List.pairwise_cons] at hp
    obtain ⟨ha, hp₂⟩ := hp
    obtain ⟨ih1, ih2⟩ := ih hp₂
    by_cases hat : a ≤ t
    · rw [List.filter_cons_of_pos (by simpa using hat), List.length_cons]
      constructor
      · intro d hd
        rw [List.take_succ_cons] at hd
        rcases List.mem_cons.mp hd with rfl | hm
        · exact hat
        · exact ih1 d hm
      · intro d hd
        rw [List.drop_succ_cons] at hd
        exact ih2 d hd
    · have hfil : (a :: L₂).filter (fun d => d ≤ t) = [] := by
        rw [List.filter_eq_nil_iff]
        intro d hd
        rcases List.mem_cons.mp hd with rfl | hm
        · simpa using hat
        · simp only [decide_eq_true_eq]
          intro hdt
          exact hat (le_trans (ha d hm) hdt)
      rw [hfil]
      constructor
      · intro d hd
        simp at hd
      · intro d hd
        rw [List.length_nil, List.drop_zero] at hd
        rcases List.mem_cons.mp hd with rfl | hm
        · exact not_le.mp hat
        · exact lt_of_lt_of_le (not_le.mp hat) (ha d hm)

/-- C6 (amended): for a non-empty gameweek table the mapper never
raises on a timestamp: it totally returns `bisect_right(deadlines,
t)`, the number of deadlines `<= t`.  That value is at most the
number of gameweeks; every deadline before the returned split point
is `<= t` and every deadline from it on is `> t` (so when a strictly
greater deadline exists the value is the 0-based index of the
smallest one); and when the kickoff is at or after every deadline the
mapper returns the full deadline count — a label, not an error (the
only error is an empty deadline table at construction time). -/
theorem gameweek_mapper (gws : List Gameweek) (t : ℤ) (h : gws ≠ []) :
    gwMapAt gws t = some (bisectRight (sortedDeadlines gws) t) ∧
    bisectRight (sortedDeadlines gws) t ≤ gws.length ∧
    (∀ d ∈ (sortedDeadlines gws).take (bisectRight (sortedDeadlines gws) t), d ≤ t) ∧
    (∀ d ∈ (sortedDeadlines gws).drop (bisectRight (sortedDeadlines gws) t), t < d) ∧
    ((∀ d ∈ gws.map Gameweek.deadlineTime, d ≤ t) →
      bisectRight (sortedDeadlines gws) t = gws.length) := by
  have hlen : (sortedDeadlines gws).length = gws.length := by
    rw [sortedDeadlines, List.length_mergeSort, List.length_map]
  have hne : sortedDeadlines gws ≠ [] := by
    intro h0
    apply h
    rw [h0] at hlen
    exact (List.length_eq_zero.mp hlen.symm)
  have hsorted : (sortedDeadlines gws).Pairwise (fun a b => a ≤ b) := by
    have hs := List.sorted_mergeSort
      (fun a b c (hab : decide (a ≤ b) = true) (hbc : decide (b ≤ c) = true) =>
        decide_eq_true (le_trans (of_decide_eq_true hab) (of_decide_eq_true hbc)))
      (fun a b => by rcases le_total a b with hh | hh <;> simp [hh])
      (gws.map Gameweek.deadlineTime)
    exact hs.imp fun hab => of_decide_eq_true hab
  obtain ⟨hsplit1, hsplit2⟩ := sorted_filter_le_split t (sortedDeadlines gws) hsorted
  refine ⟨?_, ?_, hsplit1, hsplit2, ?_⟩
  · unfold gwMapAt buildGameweekMapper
    rw [if_neg hne]
  · rw [← hlen]
    exact List.length_filter_le _ _
  · intro hall
    have : (sortedDeadlines gws).filter (fun d => d ≤ t) = sortedDeadlines gws := by
      rw [List.filter_eq_self]
      intro d hd
      simp only [decide_eq_true_eq]
      refine hall d ?_
      have := List.mem_mergeSort.mp hd
      exact this
    rw [bisectRight, this, hlen]

/-- C6 counterexample: with deadlines 10 and 20, the timestamp 100
lies after every deadline, yet the mapper returns the label `2`
(`len(deadlines)`) instead of failing. -/
theorem gameweek_mapper_counterexample :
    gwMapAt gwsW 100 = some 2 ∧ (10 : ℤ) < 100 ∧ (20 : ℤ) < 100 := by
  have hs : sortedDeadlines gwsW = [10, 20] := by
    show List.mergeSort [10, 20] _ = _
    exact List.mergeSort_of_sorted (by decide)
  refine ⟨?_, by norm_num, by norm_num⟩
  unfold gwMapAt buildGameweekMapper
  rw [hs]
  simp [bisectRight]

/-- C6 witness: the amended theorem applied to the concrete deadline
table `[10, 20]` at timestamp 15. -/
theorem gameweek_mapper_witness :
    gwMapAt gwsW 15 = some (bisectRight (sortedDeadlines gwsW) 15) ∧
    bisectRight (sortedDeadlines gwsW) 15 ≤ gwsW.length :=
  ⟨(gameweek_mapper gwsW 15 (by decide)).1, (gameweek_mapper gwsW 15 (by decide)).2.1⟩

theorem rankLE_trans (a b c : ℚ × ℤ) (h₁ : rankLE a b) (h₂ : rankLE b c) : rankLE a c := by
  unfold rankLE at *
  simp only [decide_eq_true_eq] at h₁ h₂ ⊢
  rcases h₁ with h₁ | ⟨he₁, hp₁⟩ <;> rcases h₂ with h₂ | ⟨he₂, hp₂⟩
  · exact Or.inl (lt_trans h₂ h₁)
  · exact Or.inl (he₂ ▸ h₁)
  · exact Or.inl (by rw [he₁]; exact h₂)
  · exact Or.inr ⟨he₁.trans he₂, le_trans hp₁ hp₂⟩

theorem rankLE_total (a b : ℚ × ℤ) : rankLE a b || rankLE b a := by
  unfold rankLE
  rcases lt_trichotomy a.1 b.1 with h | h | h
  · simp [h]
  · rcases le_total a.2 b.2 with hp | hp <;> simp [h, hp]
  · simp [h]

theorem rankLE_fst_le {a b : ℚ × ℤ} (h : rankLE a b) : b.1 ≤ a.1 := by
  unfold rankLE at h
  rw [decide_eq_true_eq] at h
  rcases h with h | ⟨he, -⟩
  · exact le_of_lt h
  · exact le_of_eq he.symm

theorem scoredMatches_pos {q : List String} {index : List (ℤ × List (List String))}
    {e : ℚ × ℤ} (he : e ∈ scoredMatches q index) : 0 < e.1 := by
  unfold scoredMatches at he
  rw [List.mem_filterMap] at he
  obtain ⟨pv, -, hpv⟩ := he
  dsimp only at hpv
  by_cases hpos : 0 < bestVariantScore q pv.2
  · rw [if_pos hpos] at hpv
    obtain rfl : _ = e := Option.some.inj hpv
    exact hpos
  · rw [if_neg hpos] at hpv
    exact absurd hpv (by simp)

theorem scored_pairwise (q : List String) (index : List (ℤ × List (List String))) :
    ((scoredMatches q index).mergeSort rankLE).Pairwise (fun a b => rankLE a b = true) :=
  List.sorted_mergeSort rankLE_trans rankLE_total (scoredMatches q index)

/-- C4: `_resolve_best_match` with at least one positive-scoring
candidate: if two candidates with distinct player ids tie for the
maximal score, resolution raises the ambiguity error (whose payload
carries at most the top 3 candidates); and whenever a candidate id is
returned, that candidate's score is positive and strictly higher than
every other candidate's score. -/
theorem resolver_ambiguity (q : List String) (index : List (ℤ × List (List String))) :
    (∀ e₁ e₂, e₁ ∈ scoredMatches q index → e₂ ∈ scoredMatches q index → e₁.2 ≠ e₂.2 →
      e₁.1 = e₂.1 → (∀ e ∈ scoredMatches q index, e.1 ≤ e₁.1) →
      ∃ l, resolveBestMatch q index = Except.error l ∧ l.length ≤ 3) ∧
    (∀ p, resolveBestMatch q index = Except.ok (some p) →
      ∃ s, (s, p) ∈ scoredMatches q index ∧ 0 < s ∧
        ∀ e ∈ scoredMatches q index, e.2 ≠ p → e.1 < s) := by
  constructor
  · intro e₁ e₂ h₁ h₂ hne heq hmax
    have hnonempty : scoredMatches q index ≠ [] := by
      intro h0
      rw [h0] at h₁
      exact absurd h₁ (List.not_mem_nil _)
    simp only [resolveBestMatch]
    rw [if_neg hnonempty]
    cases hsort : (scoredMatches q index).mergeSort rankLE with
    | nil =>
      exfalso
      have : e₁ ∈ (scoredMatches q index).mergeSort rankLE := List.mem_mergeSort.mpr h₁
      rw [hsort] at this
      exact absurd this (List.not_mem_nil _)
    | cons top rest =>
      have hsortedmem : ∀ e, e ∈ scoredMatches q index → e ∈ top :: rest := by
        intro e he
        rw [← hsort]
        exact List.mem_mergeSort.mpr he
      have hpw := scored_pairwise q index
      rw [hsort, List.pairwise_cons] at hpw
      have htop_scored : top ∈ scoredMatches q index := by
        have : top ∈ (scoredMatches q index).mergeSort rankLE := by
          rw [hsort]
          exact List.mem_cons_self top rest
        exact List.mem_mergeSort.mp this
      have htop_eq : top.1 = e₁.1 := by
        refine le_antisymm (hmax top htop_scored) ?_
        rcases List.mem_cons.mp (hsortedmem e₁ h₁) with hh | hh
        · rw [hh]
        · exact rankLE_fst_le (hpw.1 e₁ hh)
      cases rest with
      | nil =>
        exfalso
        have he₁' : e₁ = top := by
          rcases List.mem_cons.mp (hsortedmem e₁ h₁) with hh | hh
          · exact hh
          · exact absurd hh (List.not_mem_nil _)
        have he₂' : e₂ = top := by
          rcases List.mem_cons.mp (hsortedmem e₂ h₂) with hh | hh
          · exact hh
          · exact absurd hh (List.not_mem_nil _)
        rw [he₁', he₂'] at hne
        exact hne rfl
      | cons second rest₂ =>
        have hsecond : second.1 = top.1 := by
          refine le_antisymm ?_ ?_
          · have : second ∈ scoredMatches q index := by
              have : second ∈ (scoredMatches q index).mergeSort rankLE := by
                rw [hsort]
                exact List.mem_cons_of_mem top (List.mem_cons_self second rest₂)
              exact List.mem_mergeSort.mp this
            rw [htop_eq]
            exact hmax second this
          · obtain ⟨e', he'mem, he'ne, he'eq⟩ :
                ∃ e', e' ∈ scoredMatches q index ∧ e' ≠ top ∧ e'.1 = top.1 := by
              by_cases hcase : e₁ = top
              · refine ⟨e₂, h₂, ?_, by rw [← heq, htop_eq]⟩
                intro hh
                rw [hcase] at hne
                rw [hh] at hne
                exact hne rfl
              · exact ⟨e₁, h₁, hcase, htop_eq.symm⟩
            rcases List.mem_cons.mp (hsortedmem e' he'mem) with hh | hh
            · exact absurd hh he'ne
            · rcases List.mem_cons.mp hh with hh₂ | hh₂
              · rw [← he'eq, hh₂]
              · have hpw₂ := hpw.2
                rw [List.pairwise_cons] at hpw₂
                have := rankLE_fst_le (hpw₂.1 e' hh₂)
                rw [← he'eq]
                exact this
        refine ⟨((top :: second :: rest₂).take 3).map Prod.snd, ?_, ?_⟩
        · dsimp only
          rw [if_pos hsecond]
        · rw [List.length_map, List.length_take]
          exact min_le_left 3 _
  · intro p hp
    simp only [resolveBestMatch] at hp
    by_cases hemp : scoredMatches q index = []
    · rw [if_pos hemp] at hp
      exact absurd (Except.ok.inj hp) (by simp)
    · rw [if_neg hemp] at hp
      cases hsort : (scoredMatches q index).mergeSort rankLE with
      | nil =>
        rw [hsort] at hp
        exact absurd (Except.ok.inj hp) (by simp)
      | cons top rest =>
        rw [hsort] at hp
        have hsortedmem : ∀ e, e ∈ scoredMatches q index → e ∈ top :: rest := by
          intro e he
          rw [← hsort]
          exact List.mem_mergeSort.mpr he
        have hpw := scored_pairwise q index
        rw [hsort, List.pairwise_cons] at hpw
        have htop_scored : top ∈ scoredMatches q index := by
          have : top ∈ (scoredMatches q index).mergeSort rankLE := by
            rw [hsort]
            exact List.mem_cons_self top rest
          exact List.mem_mergeSort.mp this
        cases rest with
        | nil =>
          obtain rfl : top.2 = p := by
            have := Except.ok.inj hp
            exact Option.some.inj this
          refine ⟨top.1, htop_scored, scoredMatches_pos htop_scored, ?_⟩
          intro e he hne2
          exfalso
          rcases List.mem_cons.mp (hsortedmem e he) with hh | hh
          · rw [hh] at hne2
            exact hne2 rfl
          · exact absurd hh (List.not_mem_nil _)
        | cons second rest₂ =>
          dsimp only at hp
          by_cases htie : second.1 = top.1
          · rw [if_pos htie] at hp
            exact absurd hp (by simp)
          · rw [if_neg htie] at hp
            obtain rfl : top.2 = p := by
              have := Except.ok.inj hp
              exact Option.some.inj this
            refine ⟨top.1, htop_scored, scoredMatches_pos htop_scored, ?_⟩
            intro e he hne2
            have hsecond_lt : second.1 < top.1 :=
              lt_of_le_of_ne (rankLE_fst_le (hpw.1 second
                (List.mem_cons_self second rest₂))) htie
            rcases List.mem_cons.mp (hsortedmem e he) with hh | hh
            · exfalso
              rw [hh] at hne2
              exact hne2 rfl
            · rcases List.mem_cons.mp hh with hh₂ | hh₂
              · rw [hh₂]
                exact hsecond_lt
              · have hpw₂ := hpw.2
                rw [List.pairwise_cons] at hpw₂
                exact lt_of_le_of_lt (rankLE_fst_le (hpw₂.1 e hh₂)) hsecond_lt

/-- C4 witness: two distinct roster entries both tokenising to
`["silva"]` tie at the top score, so resolution returns the
ambiguity error (no id is produced). -/
theorem resolver_ambiguity_witness :
    (resolveBestMatch ["silva"] idxW).toOption = none := by
  have hms : matchScore ["silva"] ["silva"] = 15 := by
    norm_num [matchScore]
  have hbvs : bestVariantScore ["silva"] [["silva"]] = 15 := by
    simp [bestVariantScore, pythonMax, hms]
  have hscored : scoredMatches ["silva"] idxW = [(15, 1), (15, 2)] := by
    simp only [scoredMatches, idxW, List.filterMap_cons, List.filterMap_nil, hbvs]
    norm_num
  have hmax : ∀ e ∈ scoredMatches ["silva"] idxW, e.1 ≤ ((15 : ℚ), (1 : ℤ)).1 := by
    rw [hscored]
    intro e he
    rcases List.mem_cons.mp he with rfl | he₂
    · norm_num
    · rcases List.mem_cons.mp he₂ with rfl | he₃
      · norm_num
      · exact absurd he₃ (List.not_mem_nil _)
  obtain ⟨l, hl, -⟩ := (resolver_ambiguity ["silva"] idxW).1 ((15 : ℚ), (1 : ℤ))
    ((15 : ℚ), (2 : ℤ))
    (by rw [hscored]; exact List.mem_cons_self _ _)
    (by rw [hscored]; exact List.mem_cons_of_mem _ (List.mem_cons_self _ _))
    (by decide) rfl hmax
  rw [hl]
  rfl
